import Mathlib

/-!
Verification of the nearby-places fetch/cache/normalization layer
(`src/utils/osm.ts`) of the maps-reimagined repository.

Modelling conventions:
* JavaScript numbers arriving through `JSON.parse` (Overpass response
  coordinates) are always finite, so they are modelled as `ℚ`.
  `radiusMeters` and `limit` are modelled as `Int` (the data model declares
  them integers); `Date.now()` timestamps are `Int` milliseconds.
* A JS object used as a string map (`el.tags`) is an association list with
  first-match lookup; a missing key and an empty-string value are both
  falsy in the source's truthiness chains, and the model preserves that.
* `fetch`/`Date.now` effects are passed explicitly: `fetchNearbyOsmPlaces`
  takes the current cache, the current time, and the parsed response the
  network layer would deliver on success, and returns the result list, the
  updated cache and the number of network calls performed (0 or 1).
* The retry loop `overpassFetch` is modelled as the trace of observable
  events (request issued to an endpoint, sleep, success, final throw) as a
  function of which attempt indices succeed.
-/

/-- Rounding step of toFixed(5) on a nonnegative decimal value: round half up to 5
fractional digits.  `⌊q + 1/2⌋` computed on the numerator/denominator with
Euclidean division (the denominator of a `ℚ` is positive). -/
def ratRoundHalfUp5 (q : ℚ) : Int :=
  (2 * q.num * 100000 + (q.den : Int)).ediv (2 * (q.den : Int))

/-- Left-pad a numeral to 5 digits with zeros. -/
def pad5 (n : Nat) : String :=
  let s := toString n
  String.mk (List.replicate (5 - s.length) '0') ++ s

/-- Formatting of toFixed(5) for a nonnegative value. -/
def toFixed5Abs (q : ℚ) : String :=
  let n := (ratRoundHalfUp5 q).toNat
  toString (n / 100000) ++ "." ++ pad5 (n % 100000)

/-- JS toFixed(5) on a number: negative values format as a minus sign plus
the formatting of the negation. -/
def toFixed5 (q : ℚ) : String :=
  if q < 0 then "-" ++ toFixed5Abs (-q) else toFixed5Abs q

/-- JS String.prototype.trim: strip whitespace from both ends.  (Defined
on the character list so that it is structurally recursive.) -/
def jsTrim (s : String) : String :=
  String.mk (((s.data.dropWhile Char.isWhitespace).reverse.dropWhile
    Char.isWhitespace).reverse)

/-- JS String.prototype.toLowerCase, character by character. -/
def jsToLower (s : String) : String :=
  String.mk (s.data.map Char.toLower)

/-- Occurrence of `pat` as a contiguous segment of `hay`: at the front or
somewhere in the tail. -/
def listContains (hay pat : List Char) : Bool :=
  pat.isPrefixOf hay ||
    match hay with
    | [] => false
    | _ :: t => listContains t pat

/-- JS String.prototype.includes: the empty pattern is always contained,
and otherwise the pattern must occur as a contiguous substring. -/
def strIncludes (s pat : String) : Bool :=
  listContains s.data pat.data

/-- The closed category set of `fetchNearbyOsmPlaces`' `kinds` option. -/
inductive Kind where
  | restaurant
  | hospital
  | police
  | attraction
  | bus_station
deriving DecidableEq, Repr

/-- The TS string literal of each kind (used by `kinds.join(',')`). -/
def kindName : Kind → String
  | .restaurant => "restaurant"
  | .hospital => "hospital"
  | .police => "police"
  | .attraction => "attraction"
  | .bus_station => "bus_station"

/-- The `kindToOverpass` clause table from the source. -/
def kindToOverpass : Kind → List String
  | .restaurant =>
      ["node[amenity=restaurant]", "way[amenity=restaurant]", "relation[amenity=restaurant]"]
  | .hospital =>
      ["node[amenity=hospital]", "way[amenity=hospital]", "relation[amenity=hospital]"]
  | .police =>
      ["node[amenity=police]", "way[amenity=police]", "relation[amenity=police]"]
  | .bus_station =>
      ["node[amenity=bus_station]", "way[amenity=bus_station]", "relation[amenity=bus_station]",
       "node[highway=bus_stop]", "way[highway=bus_stop]", "relation[highway=bus_stop]"]
  | .attraction =>
      ["node[tourism=attraction]", "way[tourism=attraction]", "relation[tourism=attraction]",
       "node[tourism=museum]", "way[tourism=museum]", "relation[tourism=museum]",
       "node[historic]", "way[historic]", "relation[historic]",
       "node[amenity=place_of_worship]", "way[amenity=place_of_worship]",
       "relation[amenity=place_of_worship]"]

/-- The ordered Overpass endpoint list `OVERPASS_ENDPOINTS`. -/
def OVERPASS_ENDPOINTS : List String :=
  ["https://overpass-api.de/api/interpreter",
   "https://overpass.kumi.systems/api/interpreter",
   "https://overpass.nchc.org.tw/api/interpreter"]

/-- Observable events of one `overpassFetch` run. -/
inductive OverpassEvent where
  /-- a network request is issued against the given endpoint -/
  | attemptReq (endpoint : String)
  /-- the loop awaits sleep(ms) -/
  | sleepMs (ms : Nat)
  /-- the response is parsed and returned -/
  | success
  /-- the loop is exhausted and the last error is thrown -/
  | throwLast
deriving DecidableEq, Repr

/-- The body of `overpassFetch`'s `for (let attempt = 0; attempt < 3; ...)`
loop, as the event trace it produces: `succeeds i` tells whether the fetch
of attempt `i` succeeds.  On failure the source sleeps
`400 * (attempt + 1)` ms inside the `catch` block — also on the last
attempt — and after the loop throws the last error. -/
def overpassGo (succeeds : Nat → Bool) (attempt : Nat) : Nat → List OverpassEvent
  | 0 => [OverpassEvent.throwLast]
  | fuel + 1 =>
    let ep := OVERPASS_ENDPOINTS.getD (attempt % OVERPASS_ENDPOINTS.length) ""
    if succeeds attempt then
      [OverpassEvent.attemptReq ep, OverpassEvent.success]
    else
      OverpassEvent.attemptReq ep :: OverpassEvent.sleepMs (400 * (attempt + 1)) ::
        overpassGo succeeds (attempt + 1) fuel

/-- Full event trace of overpassFetch: three attempts starting at 0. -/
def overpassFetchEvents (succeeds : Nat → Bool) : List OverpassEvent :=
  overpassGo succeeds 0 3

/-- A normalized place record (`OsmPlace` in the source). -/
structure OsmPlace where
  id : String
  name : String
  address : String
  lat : ℚ
  lng : ℚ
  tags : List (String × String)
deriving DecidableEq, Repr

/-- A raw `center` object of an Overpass element; either field may be
absent. -/
structure RawCenter where
  lat? : Option ℚ
  lon? : Option ℚ
deriving DecidableEq, Repr

/-- A raw Overpass element.  `lat?`/`lon?` are `none` exactly when the JS
value fails `typeof el.lat === 'number'` (absent or non-number); `tags`
models `el.tags ?? {}`. -/
structure RawElement where
  type : String
  id : Int
  lat? : Option ℚ
  lon? : Option ℚ
  center? : Option RawCenter
  tags : List (String × String)
deriving DecidableEq, Repr

/-- The parsed top-level Overpass response: `elements?` is `none` when the
`elements` field is missing or not an array. -/
structure OverpassResponse where
  elements? : Option (List RawElement)
deriving DecidableEq, Repr

/-- Options object of `fetchNearbyOsmPlaces`. -/
structure FetchOptions where
  radiusMeters : Int
  kinds : List Kind
  limit? : Option Int
  query? : Option String
deriving DecidableEq, Repr

/-- One value of the module-level `cache` map. -/
structure CacheEntry where
  /-- the `at` field: the `Date.now()` at which the entry was stored -/
  atTime : Int
  data : List OsmPlace
deriving DecidableEq, Repr

/-- The module-level cache map from key strings to entries, as an association
list with first-match lookup. -/
abbrev Cache := List (String × CacheEntry)

/-- JS Map.get with string keys. -/
def cacheGet (c : Cache) (k : String) : Option CacheEntry :=
  match c with
  | [] => none
  | (k0, v0) :: rest => if k0 == k then some v0 else cacheGet rest k

/-- JS Map.set: replace the value of an existing key in place, else append. -/
def cacheSet (c : Cache) (k : String) (v : CacheEntry) : Cache :=
  match c with
  | [] => [(k, v)]
  | (k0, v0) :: rest => if k0 == k then (k0, v) :: rest else (k0, v0) :: cacheSet rest k v

/-- JS object property read defaulting to the empty string (missing keys
and empty values are equally falsy in the source's truthiness chains). -/
def tagGet (tags : List (String × String)) (k : String) : String :=
  match tags with
  | [] => ""
  | (k0, v) :: rest => if k0 == k then v else tagGet rest k

/-- The JS truthiness chain `a || b || ... || ''` over strings: the first
non-empty string, or `""`. -/
def firstTruthy : List String → String
  | [] => ""
  | x :: rest => if x.isEmpty then firstTruthy rest else x

/-- Source line: const radius = Math.max(100, Math.min(options.radiusMeters, 50_000)). -/
def clampRadius (r : Int) : Int := max 100 (min r 50000)

/-- Source line: const limit = Math.max(1, Math.min(options.limit ?? 30, 50)). -/
def clampLimit (l? : Option Int) : Int := max 1 (min (l?.getD 30) 50)

/-- Source line: const queryLower = (options.query ?? '').trim().toLowerCase(). -/
def queryLowerOf (q? : Option String) : String := jsToLower (jsTrim (q?.getD ""))

/-- The cache key template: lat.toFixed(5), a comma, lng.toFixed(5), then the
clamped radius, the comma-joined kinds and queryLower, separated by pipes. -/
def cacheKeyOf (origin : ℚ × ℚ) (opts : FetchOptions) : String :=
  toFixed5 origin.1 ++ "," ++ toFixed5 origin.2 ++ "|" ++
    toString (clampRadius opts.radiusMeters) ++ "|" ++
    String.intercalate "," (opts.kinds.map kindName) ++ "|" ++
    queryLowerOf opts.query?

/-- Source line: const lat = typeof el.lat === 'number' ? el.lat : el.center?.lat. -/
def extractLat (el : RawElement) : Option ℚ :=
  match el.lat? with
  | some v => some v
  | none => el.center?.bind (fun c => c.lat?)

/-- Source line: const lng = typeof el.lon === 'number' ? el.lon : el.center?.lon. -/
def extractLng (el : RawElement) : Option ℚ :=
  match el.lon? with
  | some v => some v
  | none => el.center?.bind (fun c => c.lon?)

/-- Source line: const rawName = (tags.name || tags.brand || tags.operator || '').trim(). -/
def rawNameOf (el : RawElement) : String :=
  jsTrim (firstTruthy
    [tagGet el.tags "name", tagGet el.tags "brand", tagGet el.tags "operator"])

/-- The `addressParts`/`address` computation. -/
def addressOf (el : RawElement) : String :=
  let t := el.tags
  let cityish := firstTruthy
    [tagGet t "addr:city", tagGet t "addr:town", tagGet t "addr:village"]
  let parts :=
    [tagGet t "addr:housenumber", tagGet t "addr:street", tagGet t "addr:suburb",
     cityish, tagGet t "addr:state"].filter (fun s => !s.isEmpty)
  String.intercalate ", " parts

/-- The per-element body of the `.map(...)`, the `null` results being
removed by the subsequent `.filter(Boolean)`: coordinate check first, then
the name check, then record construction. -/
def normalizeElement (el : RawElement) : Option OsmPlace :=
  match extractLat el, extractLng el with
  | some lat, some lng =>
      let name := rawNameOf el
      if name.isEmpty then none
      else some ⟨el.type ++ "/" ++ toString el.id, name, addressOf el, lat, lng, el.tags⟩
  | _, _ => none

/-- Source line: const elements = Array.isArray(data.elements) ? data.elements : [],
followed by the map/filter normalization. -/
def normalizeAll (resp : OverpassResponse) : List OsmPlace :=
  (resp.elements?.getD []).filterMap normalizeElement

/-- The filter predicate: the place name or address, lower-cased, contains
the lower-cased query as a substring. -/
def matchesFilter (queryLower : String) (p : OsmPlace) : Bool :=
  strIncludes (jsToLower p.name) queryLower || strIncludes (jsToLower p.address) queryLower

/-- The Overpass QL query string built from the clause list, the `around`
filter and the limit directive (side-effect free; built before the cache
check but only consumed by the network layer). -/
def buildQueryString (parts : List String) (around : String) (limit : Int) : String :=
  "[\n    out:json\n  ][timeout:25];(\n    " ++
    String.intercalate "\n    " (parts.map (fun p => p ++ around ++ ";")) ++
    "\n  );out center " ++ toString limit ++ ";"

/-- Outcome of one `fetchNearbyOsmPlaces` call: the returned list, the
cache after the call, and how many network requests the call issued. -/
structure FetchOutcome where
  result : List OsmPlace
  cache : Cache
  netCalls : Nat
deriving DecidableEq, Repr

/-- The cache-miss tail of `fetchNearbyOsmPlaces`: fetch, normalize,
filter, truncate, store. -/
def fetchMiss (origin : ℚ × ℚ) (opts : FetchOptions) (cache : Cache) (now : Int)
    (resp : OverpassResponse) : FetchOutcome :=
  let queryLower := queryLowerOf opts.query?
  let mapped := normalizeAll resp
  let filtered := if queryLower.isEmpty then mapped
    else mapped.filter (matchesFilter queryLower)
  let result := filtered.take (clampLimit opts.limit?).toNat
  ⟨result, cacheSet cache (cacheKeyOf origin opts) ⟨now, result⟩, 1⟩

/-- Top level of fetchNearbyOsmPlaces(origin, options): empty-clause short-circuit,
then cache consultation (entries younger than 60 000 ms are served
directly), else the network path. -/
def fetchNearbyOsmPlaces (origin : ℚ × ℚ) (opts : FetchOptions) (cache : Cache)
    (now : Int) (resp : OverpassResponse) : FetchOutcome :=
  if ((opts.kinds.map kindToOverpass).flatten).isEmpty then ⟨[], cache, 0⟩
  else
    match cacheGet cache (cacheKeyOf origin opts) with
    | some entry =>
        if now - entry.atTime < 60000 then ⟨entry.data, cache, 0⟩
        else fetchMiss origin opts cache now resp
    | none => fetchMiss origin opts cache now resp

/-! ### Concrete inputs used by counterexamples and witnesses -/

/-- A concrete origin. -/
def exOrigin : ℚ × ℚ := (1, 2)

/-- A named node element with direct coordinates. -/
def exElemA : RawElement := ⟨"node", 1, some 10, some 20, none, [("name", "Alpha")]⟩

/-- A second named node element with direct coordinates. -/
def exElemB : RawElement := ⟨"node", 2, some 11, some 21, none, [("name", "Beta")]⟩

/-- A response carrying the two elements above. -/
def exResp : OverpassResponse := ⟨some [exElemA, exElemB]⟩

/-- Options with limit 2. -/
def exOptsL2 : FetchOptions := ⟨500, [Kind.restaurant], some 2, none⟩

/-- The same request as `exOptsL2` except for its limit, which is 1. -/
def exOptsL1 : FetchOptions := ⟨500, [Kind.restaurant], some 1, none⟩

/-! ### Helper lemmas about the cache map -/

/-- Looking a key up right after setting it yields the value just stored. -/
theorem cacheGet_cacheSet_self (c : Cache) (k : String) (v : CacheEntry) :
    cacheGet (cacheSet c k v) k = some v := by
  induction c with
  | nil => simp [cacheSet, cacheGet]
  | cons kv rest ih =>
    obtain ⟨k0, v0⟩ := kv
    by_cases h : k0 == k
    · simp [cacheSet, cacheGet, h]
    · simp only [cacheSet, cacheGet, h, if_false, Bool.false_eq_true, ite_false]
      exact ih

/-- A successful lookup exposes a member of the association list. -/
theorem cacheGet_mem (c : Cache) (k : String) (e : CacheEntry)
    (h : cacheGet c k = some e) : (k, e) ∈ c := by
  induction c with
  | nil => simp [cacheGet] at h
  | cons kv rest ih =>
    obtain ⟨k0, v0⟩ := kv
    simp only [cacheGet] at h
    by_cases hk : k0 == k
    · rw [if_pos hk] at h
      obtain rfl : v0 = e := by simpa using h
      obtain rfl : k0 = k := by simpa using hk
      exact List.mem_cons_self _ _
    · rw [if_neg hk] at h
      exact List.mem_cons_of_mem _ (ih h)

/-- Every member of the map after a set is the new pair or an old member. -/
theorem mem_cacheSet (c : Cache) (k : String) (v : CacheEntry) (kv : String × CacheEntry)
    (h : kv ∈ cacheSet c k v) : kv = (k, v) ∨ kv ∈ c ∨ kv.2 = v := by
  induction c with
  | nil => simp [cacheSet] at h; simp [h]
  | cons kv0 rest ih =>
    obtain ⟨k0, v0⟩ := kv0
    by_cases hk : k0 == k
    · rw [cacheSet, if_pos hk] at h
      rcases List.mem_cons.mp h with h | h
      · right; right; rw [h]
      · right; left; exact List.mem_cons_of_mem _ h
    · rw [cacheSet, if_neg hk] at h
      rcases List.mem_cons.mp h with h | h
      · right; left; rw [h]; exact List.mem_cons_self _ _
      · rcases ih h with h | h | h
        · left; exact h
        · right; left; exact List.mem_cons_of_mem _ h
        · right; right; exact h

/-! ### Branch characterizations of fetchNearbyOsmPlaces -/

/-- With an empty clause list the call short-circuits before the cache. -/
theorem fetch_empty_kinds (origin : ℚ × ℚ) (opts : FetchOptions) (cache : Cache)
    (now : Int) (resp : OverpassResponse)
    (hemp : ((opts.kinds.map kindToOverpass).flatten).isEmpty = true) :
    fetchNearbyOsmPlaces origin opts cache now resp = ⟨[], cache, 0⟩ := by
  unfold fetchNearbyOsmPlaces
  rw [hemp]
  simp

/-- A fresh cache entry for the key is served directly. -/
theorem fetch_hit (origin : ℚ × ℚ) (opts : FetchOptions) (cache : Cache)
    (now : Int) (resp : OverpassResponse) (entry : CacheEntry)
    (hemp : ((opts.kinds.map kindToOverpass).flatten).isEmpty = false)
    (hget : cacheGet cache (cacheKeyOf origin opts) = some entry)
    (ht : now - entry.atTime < 60000) :
    fetchNearbyOsmPlaces origin opts cache now resp = ⟨entry.data, cache, 0⟩ := by
  unfold fetchNearbyOsmPlaces
  rw [hemp, hget]
  simp [ht]

/-- An absent cache entry sends the call to the network path. -/
theorem fetch_miss_none (origin : ℚ × ℚ) (opts : FetchOptions) (cache : Cache)
    (now : Int) (resp : OverpassResponse)
    (hemp : ((opts.kinds.map kindToOverpass).flatten).isEmpty = false)
    (hget : cacheGet cache (cacheKeyOf origin opts) = none) :
    fetchNearbyOsmPlaces origin opts cache now resp = fetchMiss origin opts cache now resp := by
  unfold fetchNearbyOsmPlaces
  rw [hemp, hget]
  simp

/-- A stale cache entry is ignored and the call goes to the network path. -/
theorem fetch_miss_stale (origin : ℚ × ℚ) (opts : FetchOptions) (cache : Cache)
    (now : Int) (resp : OverpassResponse) (entry : CacheEntry)
    (hemp : ((opts.kinds.map kindToOverpass).flatten).isEmpty = false)
    (hget : cacheGet cache (cacheKeyOf origin opts) = some entry)
    (ht : ¬ now - entry.atTime < 60000) :
    fetchNearbyOsmPlaces origin opts cache now resp = fetchMiss origin opts cache now resp := by
  unfold fetchNearbyOsmPlaces
  rw [hemp, hget]
  simp [ht]

/-- A call that issued a network request took exactly the miss path, and
its clause list was non-empty. -/
theorem fetch_of_netCalls_one (origin : ℚ × ℚ) (opts : FetchOptions) (cache : Cache)
    (now : Int) (resp : OverpassResponse)
    (h : (fetchNearbyOsmPlaces origin opts cache now resp).netCalls = 1) :
    fetchNearbyOsmPlaces origin opts cache now resp = fetchMiss origin opts cache now resp ∧
      ((opts.kinds.map kindToOverpass).flatten).isEmpty = false := by
  cases hemp : ((opts.kinds.map kindToOverpass).flatten).isEmpty with
  | true => rw [fetch_empty_kinds origin opts cache now resp hemp] at h; simp at h
  | false =>
    refine ⟨?_, rfl⟩
    cases hget : cacheGet cache (cacheKeyOf origin opts) with
    | none => exact fetch_miss_none origin opts cache now resp hemp hget
    | some entry =>
      by_cases ht : now - entry.atTime < 60000
      · rw [fetch_hit origin opts cache now resp entry hemp hget ht] at h
        simp at h
      · exact fetch_miss_stale origin opts cache now resp entry hemp hget ht

/-- Nonempty strings have isEmpty false. -/
theorem strIsEmpty_eq_false (s : String) (h : s ≠ "") : s.isEmpty = false := by
  rw [Bool.eq_false_iff]
  intro hh
  exact h ((String.isEmpty_iff s).mp hh)

/-- Appending strings is associative. -/
theorem strAppend_assoc (a b c : String) : a ++ b ++ c = a ++ (b ++ c) := by
  apply String.ext
  simp

/-! ### C5: the retry loop's attempt/backoff schedule -/

/-- The endpoint attempt number `i` targets. -/
def attemptEp (i : Nat) : String :=
  OVERPASS_ENDPOINTS.getD (i % OVERPASS_ENDPOINTS.length) ""

/-- C5 (amended): when every attempt fails, `overpassFetch` makes exactly 3
attempts, attempt `i` targeting endpoint `i mod endpointCount`, and sleeps
`400·(i+1)` ms after EVERY failed attempt — 400 and 800 ms between
consecutive attempts and an additional 1200 ms delay after the third,
final, failed attempt, before the last error is thrown. -/
theorem C5_allfail_trace (succeeds : Nat → Bool) (h : ∀ i, succeeds i = false) :
    overpassFetchEvents succeeds =
      [OverpassEvent.attemptReq (attemptEp 0), OverpassEvent.sleepMs 400,
       OverpassEvent.attemptReq (attemptEp 1), OverpassEvent.sleepMs 800,
       OverpassEvent.attemptReq (attemptEp 2), OverpassEvent.sleepMs 1200,
       OverpassEvent.throwLast] := by
  simp [overpassFetchEvents, overpassGo, h 0, h 1, h 2, attemptEp]

/-- C5 witness: the amended trace at the concrete all-failing oracle. -/
theorem C5_allfail_trace_witness :
    overpassFetchEvents (fun _ => false) =
      [OverpassEvent.attemptReq (attemptEp 0), OverpassEvent.sleepMs 400,
       OverpassEvent.attemptReq (attemptEp 1), OverpassEvent.sleepMs 800,
       OverpassEvent.attemptReq (attemptEp 2), OverpassEvent.sleepMs 1200,
       OverpassEvent.throwLast] :=
  C5_allfail_trace (fun _ => false) (fun _ => rfl)

/-- C5 counterexample: in the all-fail run the code does NOT surface the
error right after the final attempt — a 1200 ms sleep sits between the
third attempt and the throw, so the claimed trace (2 delays between 3
attempts, none after the last) is not the code's trace. -/
theorem C5_counterexample :
    overpassFetchEvents (fun _ => false) ≠
      [OverpassEvent.attemptReq (attemptEp 0), OverpassEvent.sleepMs 400,
       OverpassEvent.attemptReq (attemptEp 1), OverpassEvent.sleepMs 800,
       OverpassEvent.attemptReq (attemptEp 2), OverpassEvent.throwLast] ∧
    (overpassFetchEvents (fun _ => false)).drop 5 =
      [OverpassEvent.sleepMs 1200, OverpassEvent.throwLast] := by
  constructor
  · decide
  · decide

/-! ### C2: the cache fingerprint -/

/-- Options listing hospital before restaurant. -/
def exOptsHR : FetchOptions := ⟨500, [Kind.hospital, Kind.restaurant], some 30, none⟩

/-- The same category set listed in the other order. -/
def exOptsRH : FetchOptions := ⟨500, [Kind.restaurant, Kind.hospital], some 30, none⟩

/-- C2 counterexample: two requests with equal category sets given in
different order produce DIFFERENT fingerprints — the source joins
`options.kinds` as given and never sorts them. -/
theorem C2_counterexample :
    exOptsHR.kinds.toFinset = exOptsRH.kinds.toFinset ∧
    exOptsHR.radiusMeters = exOptsRH.radiusMeters ∧
    exOptsHR.query? = exOptsRH.query? ∧
    cacheKeyOf exOrigin exOptsHR ≠ cacheKeyOf exOrigin exOptsRH := by
  refine ⟨by decide, rfl, rfl, by decide⟩

/-- The fingerprint as the amended claim words it: the pipe-separated
concatenation of the origin rounded to 5 decimals, the clamped radius,
the comma-joined category list IN THE ORDER GIVEN (not sorted), and the
lower-cased trimmed text filter. -/
def fingerprintOrdered (origin : ℚ × ℚ) (opts : FetchOptions) : String :=
  String.intercalate "|"
    [toFixed5 origin.1 ++ "," ++ toFixed5 origin.2,
     toString (clampRadius opts.radiusMeters),
     String.intercalate "," (opts.kinds.map kindName),
     queryLowerOf opts.query?]

/-- C2 (amended): the cache fingerprint is the concatenation of the origin
coordinates rounded to 5 decimal places, the clamped radius, the category
list in the order the caller gave it, and the lower-cased trimmed text
filter; the request's limit does not enter the fingerprint. -/
theorem C2_fingerprint (origin : ℚ × ℚ) (opts : FetchOptions) (l? : Option Int) :
    cacheKeyOf origin opts = fingerprintOrdered origin opts ∧
    cacheKeyOf origin ⟨opts.radiusMeters, opts.kinds, l?, opts.query?⟩ =
      cacheKeyOf origin opts := by
  constructor
  · simp [cacheKeyOf, fingerprintOrdered, String.intercalate, String.intercalate.go,
      strAppend_assoc]
  · rfl

/-- C2 witness: the fingerprint format at a concrete request. -/
theorem C2_fingerprint_witness :
    cacheKeyOf exOrigin exOptsHR = fingerprintOrdered exOrigin exOptsHR ∧
    cacheKeyOf exOrigin ⟨exOptsHR.radiusMeters, exOptsHR.kinds, some 7, exOptsHR.query?⟩ =
      cacheKeyOf exOrigin exOptsHR :=
  C2_fingerprint exOrigin exOptsHR (some 7)

/-! ### C1: limit clamping and the result-length bound -/

/-- Every entry stored in the cache holds at most 50 places. -/
def cacheWF (c : Cache) : Prop := ∀ kv ∈ c, kv.2.data.length ≤ 50

/-- The clamped limit always lands in [1, 50]. -/
theorem clampLimit_bounds (l? : Option Int) :
    1 ≤ clampLimit l? ∧ clampLimit l? ≤ 50 :=
  ⟨le_max_left _ _, max_le (by norm_num) (min_le_right _ _)⟩

/-- The network path truncates to the clamped limit. -/
theorem fetchMiss_result_length (origin : ℚ × ℚ) (opts : FetchOptions) (cache : Cache)
    (now : Int) (resp : OverpassResponse) :
    (fetchMiss origin opts cache now resp).result.length ≤ (clampLimit opts.limit?).toNat := by
  have h : (fetchMiss origin opts cache now resp).result
      = (if (queryLowerOf opts.query?).isEmpty then normalizeAll resp
         else (normalizeAll resp).filter (matchesFilter (queryLowerOf opts.query?))).take
          (clampLimit opts.limit?).toNat := rfl
  rw [h, List.length_take]
  exact min_le_left _ _

/-- C1 counterexample: the stored list of a prior call with limit 2 is
served unchanged to a later identical request whose own clamped limit is
1, so a cache-served result can exceed the caller's clamped limit. -/
theorem C1_counterexample :
    clampLimit exOptsL1.limit? = 1 ∧
    (fetchNearbyOsmPlaces exOrigin exOptsL1
        (fetchNearbyOsmPlaces exOrigin exOptsL2 [] 0 exResp).cache 1000 exResp).result.length
      = 2 := by
  constructor
  · decide
  · decide

/-- C1 (amended): the limit option is always clamped into [1, 50] before
use; a call that actually fetches returns at most its own clamped limit of
entries; a cache-served call returns the stored entry, which is bounded by
the STORING call's clamped limit — hence by 50 — but not necessarily by
the current call's limit; storing preserves that global bound. -/
theorem C1_limit_clamped_and_bounded (origin : ℚ × ℚ) (opts : FetchOptions) (cache : Cache)
    (now : Int) (resp : OverpassResponse) (hwf : cacheWF cache) :
    1 ≤ clampLimit opts.limit? ∧ clampLimit opts.limit? ≤ 50 ∧
    ((fetchNearbyOsmPlaces origin opts cache now resp).netCalls = 1 →
      (fetchNearbyOsmPlaces origin opts cache now resp).result.length
        ≤ (clampLimit opts.limit?).toNat) ∧
    (fetchNearbyOsmPlaces origin opts cache now resp).result.length ≤ 50 ∧
    cacheWF (fetchNearbyOsmPlaces origin opts cache now resp).cache := by
  obtain ⟨hone, hfifty⟩ := clampLimit_bounds opts.limit?
  have htoNat : (clampLimit opts.limit?).toNat ≤ 50 := by omega
  have hlen := fetchMiss_result_length origin opts cache now resp
  have hwfSet : cacheWF (fetchMiss origin opts cache now resp).cache := by
    have hc : (fetchMiss origin opts cache now resp).cache
        = cacheSet cache (cacheKeyOf origin opts)
            ⟨now, (fetchMiss origin opts cache now resp).result⟩ := rfl
    rw [hc]
    intro kv hkv
    rcases mem_cacheSet _ _ _ _ hkv with h | h | h
    · rw [h]; exact le_trans hlen htoNat
    · exact hwf kv h
    · rw [h]; exact le_trans hlen htoNat
  refine ⟨hone, hfifty, ?_⟩
  cases hemp : ((opts.kinds.map kindToOverpass).flatten).isEmpty with
  | true =>
    rw [fetch_empty_kinds origin opts cache now resp hemp]
    exact ⟨fun h => by simp at h, by simp, hwf⟩
  | false =>
    cases hget : cacheGet cache (cacheKeyOf origin opts) with
    | some entry =>
      by_cases ht : now - entry.atTime < 60000
      · rw [fetch_hit origin opts cache now resp entry hemp hget ht]
        have hmem := hwf _ (cacheGet_mem cache (cacheKeyOf origin opts) entry hget)
        exact ⟨fun h => by simp at h, hmem, hwf⟩
      · rw [fetch_miss_stale origin opts cache now resp entry hemp hget ht]
        exact ⟨fun _ => hlen, le_trans hlen htoNat, hwfSet⟩
    | none =>
      rw [fetch_miss_none origin opts cache now resp hemp hget]
      exact ⟨fun _ => hlen, le_trans hlen htoNat, hwfSet⟩

/-- C1 witness: the amended statement at a concrete request over the empty
cache. -/
theorem C1_limit_witness :
    cacheWF ([] : Cache) ∧
    (1 ≤ clampLimit exOptsL2.limit? ∧ clampLimit exOptsL2.limit? ≤ 50 ∧
     ((fetchNearbyOsmPlaces exOrigin exOptsL2 [] 0 exResp).netCalls = 1 →
       (fetchNearbyOsmPlaces exOrigin exOptsL2 [] 0 exResp).result.length
         ≤ (clampLimit exOptsL2.limit?).toNat) ∧
     (fetchNearbyOsmPlaces exOrigin exOptsL2 [] 0 exResp).result.length ≤ 50 ∧
     cacheWF (fetchNearbyOsmPlaces exOrigin exOptsL2 [] 0 exResp).cache) :=
  ⟨by simp [cacheWF],
   C1_limit_clamped_and_bounded exOrigin exOptsL2 [] 0 exResp (by simp [cacheWF])⟩

/-! ### C3, C4, C6: cache behaviour across two calls -/

/-- A call that fetched stored its (truncated) result under its own
fingerprint with its own timestamp. -/
theorem cacheGet_after_store (o1 : ℚ × ℚ) (opts1 : FetchOptions) (cache : Cache)
    (t1 : Int) (r1 : OverpassResponse)
    (h1 : (fetchNearbyOsmPlaces o1 opts1 cache t1 r1).netCalls = 1) :
    cacheGet (fetchNearbyOsmPlaces o1 opts1 cache t1 r1).cache (cacheKeyOf o1 opts1)
      = some ⟨t1, (fetchNearbyOsmPlaces o1 opts1 cache t1 r1).result⟩ := by
  obtain ⟨heq, -⟩ := fetch_of_netCalls_one o1 opts1 cache t1 r1 h1
  rw [heq]
  exact cacheGet_cacheSet_self cache (cacheKeyOf o1 opts1) _

/-- C3: the fingerprint does not include the limit.  If a second call
agrees with a network-serving first call on the rounded origin, the
clamped radius, the category list (same order) and the normalized text
filter — its own limit being arbitrary — and happens within 60 s, it
returns the first call's stored truncated sequence unchanged and makes no
network call. -/
theorem C3_cache_ignores_limit (o1 o2 : ℚ × ℚ) (opts1 opts2 : FetchOptions)
    (cache : Cache) (t1 t2 : Int) (r1 r2 : OverpassResponse)
    (hlat : toFixed5 o2.1 = toFixed5 o1.1) (hlng : toFixed5 o2.2 = toFixed5 o1.2)
    (hrad : clampRadius opts2.radiusMeters = clampRadius opts1.radiusMeters)
    (hkinds : opts2.kinds = opts1.kinds)
    (hquery : queryLowerOf opts2.query? = queryLowerOf opts1.query?)
    (h1 : (fetchNearbyOsmPlaces o1 opts1 cache t1 r1).netCalls = 1)
    (ht : t2 - t1 < 60000) :
    (fetchNearbyOsmPlaces o2 opts2
        (fetchNearbyOsmPlaces o1 opts1 cache t1 r1).cache t2 r2).result
      = (fetchNearbyOsmPlaces o1 opts1 cache t1 r1).result ∧
    (fetchNearbyOsmPlaces o2 opts2
        (fetchNearbyOsmPlaces o1 opts1 cache t1 r1).cache t2 r2).netCalls = 0 := by
  obtain ⟨-, hemp1⟩ := fetch_of_netCalls_one o1 opts1 cache t1 r1 h1
  have hkey : cacheKeyOf o2 opts2 = cacheKeyOf o1 opts1 := by
    unfold cacheKeyOf
    rw [hlat, hlng, hrad, hkinds, hquery]
  have hemp2 : ((opts2.kinds.map kindToOverpass).flatten).isEmpty = false := by
    rw [hkinds]; exact hemp1
  have hget : cacheGet (fetchNearbyOsmPlaces o1 opts1 cache t1 r1).cache
      (cacheKeyOf o2 opts2)
      = some ⟨t1, (fetchNearbyOsmPlaces o1 opts1 cache t1 r1).result⟩ := by
    rw [hkey]; exact cacheGet_after_store o1 opts1 cache t1 r1 h1
  have hrun := fetch_hit o2 opts2 (fetchNearbyOsmPlaces o1 opts1 cache t1 r1).cache
    t2 r2 ⟨t1, (fetchNearbyOsmPlaces o1 opts1 cache t1 r1).result⟩ hemp2 hget ht
  rw [hrun]
  exact ⟨rfl, rfl⟩

/-- C3 witness: the stored two-place list of a limit-2 call is returned
unchanged to a limit-1 call issued 1 s later. -/
theorem C3_cache_ignores_limit_witness :
    ((fetchNearbyOsmPlaces exOrigin exOptsL2 [] 0 exResp).netCalls = 1 ∧
      (1000 : Int) - 0 < 60000) ∧
    ((fetchNearbyOsmPlaces exOrigin exOptsL1
        (fetchNearbyOsmPlaces exOrigin exOptsL2 [] 0 exResp).cache 1000 exResp).result
      = (fetchNearbyOsmPlaces exOrigin exOptsL2 [] 0 exResp).result ∧
     (fetchNearbyOsmPlaces exOrigin exOptsL1
        (fetchNearbyOsmPlaces exOrigin exOptsL2 [] 0 exResp).cache 1000 exResp).netCalls
      = 0) :=
  ⟨⟨by decide, by decide⟩,
   C3_cache_ignores_limit exOrigin exOrigin exOptsL2 exOptsL1 [] 0 1000 exResp exResp
     rfl rfl rfl rfl rfl (by decide) (by decide)⟩

/-- C4: idempotence under caching.  After a network-serving call, the same
request re-issued within 60 s returns the identical stored list, performs
no network fetch (its response oracle `r2` is arbitrary and unused) and
leaves the cache untouched — the stored entry is served directly. -/
theorem C4_idempotent_within_ttl (origin : ℚ × ℚ) (opts : FetchOptions) (cache : Cache)
    (t1 t2 : Int) (r1 r2 : OverpassResponse)
    (h1 : (fetchNearbyOsmPlaces origin opts cache t1 r1).netCalls = 1)
    (ht : t2 - t1 < 60000) :
    (fetchNearbyOsmPlaces origin opts
        (fetchNearbyOsmPlaces origin opts cache t1 r1).cache t2 r2).result
      = (fetchNearbyOsmPlaces origin opts cache t1 r1).result ∧
    (fetchNearbyOsmPlaces origin opts
        (fetchNearbyOsmPlaces origin opts cache t1 r1).cache t2 r2).netCalls = 0 ∧
    (fetchNearbyOsmPlaces origin opts
        (fetchNearbyOsmPlaces origin opts cache t1 r1).cache t2 r2).cache
      = (fetchNearbyOsmPlaces origin opts cache t1 r1).cache := by
  obtain ⟨-, hemp⟩ := fetch_of_netCalls_one origin opts cache t1 r1 h1
  have hget := cacheGet_after_store origin opts cache t1 r1 h1
  have hrun := fetch_hit origin opts (fetchNearbyOsmPlaces origin opts cache t1 r1).cache
    t2 r2 ⟨t1, (fetchNearbyOsmPlaces origin opts cache t1 r1).result⟩ hemp hget ht
  rw [hrun]
  exact ⟨rfl, rfl, rfl⟩

/-- C4 witness: the identical request 1 s later, even with a different
response oracle, returns the stored list without a fetch. -/
theorem C4_idempotent_witness :
    ((fetchNearbyOsmPlaces exOrigin exOptsL2 [] 0 exResp).netCalls = 1 ∧
      (1000 : Int) - 0 < 60000) ∧
    ((fetchNearbyOsmPlaces exOrigin exOptsL2
        (fetchNearbyOsmPlaces exOrigin exOptsL2 [] 0 exResp).cache 1000 ⟨none⟩).result
      = (fetchNearbyOsmPlaces exOrigin exOptsL2 [] 0 exResp).result ∧
     (fetchNearbyOsmPlaces exOrigin exOptsL2
        (fetchNearbyOsmPlaces exOrigin exOptsL2 [] 0 exResp).cache 1000 ⟨none⟩).netCalls
      = 0 ∧
     (fetchNearbyOsmPlaces exOrigin exOptsL2
        (fetchNearbyOsmPlaces exOrigin exOptsL2 [] 0 exResp).cache 1000 ⟨none⟩).cache
      = (fetchNearbyOsmPlaces exOrigin exOptsL2 [] 0 exResp).cache) :=
  ⟨⟨by decide, by decide⟩,
   C4_idempotent_within_ttl exOrigin exOptsL2 [] 0 1000 exResp ⟨none⟩
     (by decide) (by decide)⟩

/-- C6: cache expiry.  After a network-serving call at `t1`, re-issuing
the same request at `t2` with the entry's age at least 60 s finds the
stale entry still present (ignored, not deleted), performs exactly one new
network call, and overwrites the entry under the same fingerprint with the
current timestamp `t2`. -/
theorem C6_expiry_refetch (origin : ℚ × ℚ) (opts : FetchOptions) (cache : Cache)
    (t1 t2 : Int) (r1 r2 : OverpassResponse)
    (h1 : (fetchNearbyOsmPlaces origin opts cache t1 r1).netCalls = 1)
    (ht : ¬ t2 - t1 < 60000) :
    cacheGet (fetchNearbyOsmPlaces origin opts cache t1 r1).cache (cacheKeyOf origin opts)
      = some ⟨t1, (fetchNearbyOsmPlaces origin opts cache t1 r1).result⟩ ∧
    (fetchNearbyOsmPlaces origin opts
        (fetchNearbyOsmPlaces origin opts cache t1 r1).cache t2 r2).netCalls = 1 ∧
    cacheGet (fetchNearbyOsmPlaces origin opts
        (fetchNearbyOsmPlaces origin opts cache t1 r1).cache t2 r2).cache
        (cacheKeyOf origin opts)
      = some ⟨t2, (fetchNearbyOsmPlaces origin opts
          (fetchNearbyOsmPlaces origin opts cache t1 r1).cache t2 r2).result⟩ := by
  obtain ⟨-, hemp⟩ := fetch_of_netCalls_one origin opts cache t1 r1 h1
  have hget := cacheGet_after_store origin opts cache t1 r1 h1
  have hrun := fetch_miss_stale origin opts
    (fetchNearbyOsmPlaces origin opts cache t1 r1).cache t2 r2
    ⟨t1, (fetchNearbyOsmPlaces origin opts cache t1 r1).result⟩ hemp hget ht
  refine ⟨hget, ?_, ?_⟩
  · rw [hrun]
    exact rfl
  · rw [hrun]
    exact cacheGet_cacheSet_self _ _ _

/-- C6 witness: the same request 70 s later refetches once and overwrites
the entry with the new timestamp. -/
theorem C6_expiry_witness :
    ((fetchNearbyOsmPlaces exOrigin exOptsL2 [] 0 exResp).netCalls = 1 ∧
      ¬ (70000 : Int) - 0 < 60000) ∧
    (cacheGet (fetchNearbyOsmPlaces exOrigin exOptsL2 [] 0 exResp).cache
        (cacheKeyOf exOrigin exOptsL2)
      = some ⟨0, (fetchNearbyOsmPlaces exOrigin exOptsL2 [] 0 exResp).result⟩ ∧
     (fetchNearbyOsmPlaces exOrigin exOptsL2
        (fetchNearbyOsmPlaces exOrigin exOptsL2 [] 0 exResp).cache 70000 exResp).netCalls
      = 1 ∧
     cacheGet (fetchNearbyOsmPlaces exOrigin exOptsL2
        (fetchNearbyOsmPlaces exOrigin exOptsL2 [] 0 exResp).cache 70000 exResp).cache
        (cacheKeyOf exOrigin exOptsL2)
      = some ⟨70000, (fetchNearbyOsmPlaces exOrigin exOptsL2
          (fetchNearbyOsmPlaces exOrigin exOptsL2 [] 0 exResp).cache 70000 exResp).result⟩) :=
  ⟨⟨by decide, by decide⟩,
   C6_expiry_refetch exOrigin exOptsL2 [] 0 70000 exResp exResp (by decide) (by decide)⟩

/-! ### C7: display-name extraction -/

/-- An element whose name tag is whitespace-only but whose brand tag is a
real name. -/
def exElemWS : RawElement := ⟨"node", 9, some 1, some 2, none, [("name", "  "), ("brand", "X")]⟩

/-- The place produced from `exElemA`. -/
def exPlaceA : OsmPlace := ⟨"node/1", "Alpha", "", 10, 20, [("name", "Alpha")]⟩

/-- C7 counterexample: an element whose name tag is whitespace-only and
whose brand tag is the non-empty "X" is discarded entirely — the
truthiness chain picks the whitespace name BEFORE trimming and the trim
then empties it — although its candidates are not all empty or absent, so
the claimed selection of "the first non-empty of name, brand, operator"
does not describe the code. -/
theorem C7_counterexample :
    normalizeElement exElemWS = none ∧
    tagGet exElemWS.tags "brand" = "X" ∧
    firstTruthy [tagGet exElemWS.tags "name", tagGet exElemWS.tags "brand",
      tagGet exElemWS.tags "operator"] = "  " := by
  refine ⟨by decide, by decide, by decide⟩

/-- C7 (amended): the display name is the TRIMMED first truthy
(non-empty-string) candidate among the name, brand and operator tags; the
element is discarded exactly when that trimmed value is empty (given
usable coordinates) — so a whitespace-only first candidate masks later
ones — and every entry returned by a network-serving call has a non-empty
name, the discard happening before the limit is applied. -/
theorem C7_name_extraction (el : RawElement) (origin : ℚ × ℚ) (opts : FetchOptions)
    (cache : Cache) (now : Int) (resp : OverpassResponse) :
    (∀ p, normalizeElement el = some p → p.name = rawNameOf el ∧ p.name ≠ "") ∧
    ((extractLat el).isSome → (extractLng el).isSome →
      (normalizeElement el = none ↔ rawNameOf el = "")) ∧
    ((fetchNearbyOsmPlaces origin opts cache now resp).netCalls = 1 →
      ∀ p ∈ (fetchNearbyOsmPlaces origin opts cache now resp).result, p.name ≠ "") := by
  have hname : ∀ (e : RawElement) (p : OsmPlace),
      normalizeElement e = some p → p.name = rawNameOf e ∧ p.name ≠ "" := by
    intro e p hp
    unfold normalizeElement at hp
    split at hp
    · by_cases hn : (rawNameOf e).isEmpty
      · rw [if_pos hn] at hp
        cases hp
      · rw [if_neg hn] at hp
        obtain rfl : _ = p := by injection hp
        refine ⟨rfl, ?_⟩
        intro hcon
        exact hn (by rw [show rawNameOf e = "" from hcon]; rfl)
    · cases hp
  refine ⟨hname el, ?_, ?_⟩
  · intro hla hlb
    obtain ⟨a, ha⟩ := Option.isSome_iff_exists.mp hla
    obtain ⟨b, hb⟩ := Option.isSome_iff_exists.mp hlb
    unfold normalizeElement
    rw [ha, hb]
    by_cases hn : (rawNameOf el).isEmpty
    · have h0 : rawNameOf el = "" := (String.isEmpty_iff _).mp hn
      simp [h0, show ("" : String).isEmpty = true from rfl]
    · have : rawNameOf el ≠ "" := fun hcon => hn (by rw [hcon]; rfl)
      simp [hn, this]
  · intro hcall p hp
    obtain ⟨heq, -⟩ := fetch_of_netCalls_one origin opts cache now resp hcall
    rw [heq] at hp
    have hp2 : p ∈ (if (queryLowerOf opts.query?).isEmpty then normalizeAll resp
        else (normalizeAll resp).filter (matchesFilter (queryLowerOf opts.query?))) :=
      List.take_subset _ _ hp
    have hp3 : p ∈ normalizeAll resp := by
      by_cases hq : (queryLowerOf opts.query?).isEmpty
      · rw [if_pos hq] at hp2; exact hp2
      · rw [if_neg hq] at hp2; exact (List.mem_filter.mp hp2).1
    obtain ⟨e, -, he⟩ := List.mem_filterMap.mp hp3
    exact (hname e p he).2

/-- C7 witness: the name extracted for a concrete element. -/
theorem C7_name_witness :
    normalizeElement exElemA = some exPlaceA ∧
    (exPlaceA.name = rawNameOf exElemA ∧ exPlaceA.name ≠ "") :=
  ⟨by decide,
   (C7_name_extraction exElemA exOrigin exOptsL2 [] 0 exResp).1 exPlaceA (by decide)⟩

/-! ### C8: coordinate extraction -/

/-- An element with no direct coordinates and a center pair. -/
def exElemCenter : RawElement := ⟨"way", 3, none, none, some ⟨some 1, some 2⟩, [("name", "C")]⟩

/-- The place produced from `exElemCenter`. -/
def exPlaceC : OsmPlace := ⟨"way/3", "C", "", 1, 2, [("name", "C")]⟩

/-- C8: coordinate extraction prefers the direct point coordinate, falls
back to the center coordinate when the direct one is absent, discards the
element when a coordinate is obtained from neither source, and stamps the
extracted pair on the produced place.  (Numbers parsed from JSON are
always finite, so the finiteness proviso is inherent in the model.) -/
theorem C8_coordinate_extraction (el : RawElement) (a : ℚ) :
    (el.lat? = some a → extractLat el = some a) ∧
    (el.lon? = some a → extractLng el = some a) ∧
    (el.lat? = none → extractLat el = el.center?.bind (fun c => c.lat?)) ∧
    (el.lon? = none → extractLng el = el.center?.bind (fun c => c.lon?)) ∧
    ((extractLat el).isNone ∨ (extractLng el).isNone → normalizeElement el = none) ∧
    (∀ p, normalizeElement el = some p →
      extractLat el = some p.lat ∧ extractLng el = some p.lng) := by
  refine ⟨?_, ?_, ?_, ?_, ?_, ?_⟩
  · intro h; simp [extractLat, h]
  · intro h; simp [extractLng, h]
  · intro h; simp [extractLat, h]
  · intro h; simp [extractLng, h]
  · intro h
    unfold normalizeElement
    split
    · rename_i lat lng hla hlb
      rw [hla, hlb] at h
      simp at h
    · rfl
  · intro p hp
    unfold normalizeElement at hp
    split at hp
    · rename_i lat lng hla hlb
      by_cases hn : (rawNameOf el).isEmpty
      · rw [if_pos hn] at hp; cases hp
      · rw [if_neg hn] at hp
        obtain rfl : _ = p := by injection hp
        exact ⟨hla, hlb⟩
    · cases hp

/-- C8 witness: the spec's geometry-fallback example — center (1,2), no
direct coordinates — yields the place coordinate (1,2). -/
theorem C8_coordinate_witness :
    normalizeElement exElemCenter = some exPlaceC ∧
    (extractLat exElemCenter = some exPlaceC.lat ∧
     extractLng exElemCenter = some exPlaceC.lng) ∧
    exPlaceC.lat = 1 ∧ exPlaceC.lng = 2 :=
  ⟨by decide,
   (C8_coordinate_extraction exElemCenter 0).2.2.2.2.2 exPlaceC (by decide),
   by decide, by decide⟩

/-! ### C9: malformed top-level response -/

/-- C9: when the response has no usable elements array, a network-serving
call returns the empty list (the function is total — the malformed
payload is degraded, never turned into a rejection). -/
theorem C9_malformed_empty (origin : ℚ × ℚ) (opts : FetchOptions) (cache : Cache)
    (now : Int) (resp : OverpassResponse)
    (hm : resp.elements? = none)
    (h1 : (fetchNearbyOsmPlaces origin opts cache now resp).netCalls = 1) :
    (fetchNearbyOsmPlaces origin opts cache now resp).result = [] := by
  obtain ⟨heq, -⟩ := fetch_of_netCalls_one origin opts cache now resp h1
  rw [heq]
  have h0 : (fetchMiss origin opts cache now resp).result
      = (if (queryLowerOf opts.query?).isEmpty then normalizeAll resp
         else (normalizeAll resp).filter (matchesFilter (queryLowerOf opts.query?))).take
        (clampLimit opts.limit?).toNat := rfl
  rw [h0]
  simp [normalizeAll, hm]

/-- C9 witness: the empty-object response at a concrete fetching call. -/
theorem C9_malformed_witness :
    ((⟨none⟩ : OverpassResponse).elements? = none ∧
      (fetchNearbyOsmPlaces exOrigin exOptsL2 [] 0 ⟨none⟩).netCalls = 1) ∧
    (fetchNearbyOsmPlaces exOrigin exOptsL2 [] 0 ⟨none⟩).result = [] :=
  ⟨⟨rfl, by decide⟩, C9_malformed_empty exOrigin exOptsL2 [] 0 ⟨none⟩ rfl (by decide)⟩

/-! ### C10: the text filter -/

/-- C10: with a non-empty normalized text filter, a network-serving call
returns exactly the prefix (up to the clamped limit) of the normalized
places whose name or address contains the filter case-insensitively —
the filter is applied to the full normalized list before truncation, and
every returned entry matches it. -/
theorem C10_text_filter (origin : ℚ × ℚ) (opts : FetchOptions) (cache : Cache)
    (now : Int) (resp : OverpassResponse)
    (h1 : (fetchNearbyOsmPlaces origin opts cache now resp).netCalls = 1)
    (hq : queryLowerOf opts.query? ≠ "") :
    (fetchNearbyOsmPlaces origin opts cache now resp).result
      = ((normalizeAll resp).filter
          (matchesFilter (queryLowerOf opts.query?))).take (clampLimit opts.limit?).toNat ∧
    ∀ p ∈ (fetchNearbyOsmPlaces origin opts cache now resp).result,
      matchesFilter (queryLowerOf opts.query?) p = true := by
  obtain ⟨heq, -⟩ := fetch_of_netCalls_one origin opts cache now resp h1
  have hqb : (queryLowerOf opts.query?).isEmpty = false := strIsEmpty_eq_false _ hq
  have hres : (fetchNearbyOsmPlaces origin opts cache now resp).result
      = ((normalizeAll resp).filter (matchesFilter (queryLowerOf opts.query?))).take
        (clampLimit opts.limit?).toNat := by
    rw [heq]
    have h0 : (fetchMiss origin opts cache now resp).result
        = (if (queryLowerOf opts.query?).isEmpty then normalizeAll resp
           else (normalizeAll resp).filter (matchesFilter (queryLowerOf opts.query?))).take
          (clampLimit opts.limit?).toNat := rfl
    rw [h0, hqb]
    simp
  refine ⟨hres, ?_⟩
  intro p hp
  rw [hres] at hp
  exact (List.mem_filter.mp (List.take_subset _ _ hp)).2

/-- The spec's text-filter example: a Grand Cafe element. -/
def exElemCafe : RawElement := ⟨"node", 5, some 1, some 2, none, [("name", "Grand Cafe")]⟩

/-- The spec's text-filter example: a City Hospital element. -/
def exElemHosp : RawElement := ⟨"node", 6, some 3, some 4, none, [("name", "City Hospital")]⟩

/-- A response with the two example places. -/
def exRespCafe : OverpassResponse := ⟨some [exElemCafe, exElemHosp]⟩

/-- A request whose text filter is "cafe". -/
def exOptsCafe : FetchOptions := ⟨500, [Kind.restaurant], some 30, some "cafe"⟩

/-- C10 witness: with filter "cafe" only the Grand Cafe place is
retained. -/
theorem C10_text_filter_witness :
    ((fetchNearbyOsmPlaces exOrigin exOptsCafe [] 0 exRespCafe).netCalls = 1 ∧
      queryLowerOf exOptsCafe.query? ≠ "") ∧
    ((fetchNearbyOsmPlaces exOrigin exOptsCafe [] 0 exRespCafe).result
      = ((normalizeAll exRespCafe).filter
          (matchesFilter (queryLowerOf exOptsCafe.query?))).take
          (clampLimit exOptsCafe.limit?).toNat ∧
     ∀ p ∈ (fetchNearbyOsmPlaces exOrigin exOptsCafe [] 0 exRespCafe).result,
       matchesFilter (queryLowerOf exOptsCafe.query?) p = true) :=
  ⟨⟨by decide, by decide⟩,
   C10_text_filter exOrigin exOptsCafe [] 0 exRespCafe (by decide) (by decide)⟩
